import Mathlib

/-!
Verification model of the gain socket-server core: the completion-tag flag
scheme, the acceptor, the consumer-worker event loop and its per-connection
state machine, graceful shutdown, and the two load balancers.  Definitions
are shallow embeddings of the Go source; parts of the repository that are
only referenced by the excerpt (flag constants, the connection manager, the
load-balancer implementations) are modelled from the specification and say
so in their doc comments.
-/

namespace Gain

/-- Modelled from the spec: operation-kind flag for write-data completions,
one of four mutually exclusive high bits of the 64-bit completion tag (the
flag constant definitions live outside the excerpt). -/
def writeDataFlag : Nat := 2 ^ 60

/-- Modelled from the spec: operation-kind flag for close completions. -/
def closeConnFlag : Nat := 2 ^ 61

/-- Modelled from the spec: operation-kind flag for added-connection (handoff)
completions. -/
def addConnFlag : Nat := 2 ^ 62

/-- Modelled from the spec: operation-kind flag for accept completions. -/
def acceptDataFlag : Nat := 2 ^ 63

/-- Union of all operation-kind flag bits, the value the code masks off with
the Go expression UserData and-not allFlagsMask. -/
def allFlagsMask : Nat := acceptDataFlag ||| addConnFlag ||| closeConnFlag ||| writeDataFlag

/-- Bitwise complement on 64-bit words: the Go expression (caret x) for a
uint64 x. -/
def complement64 (x : Nat) : Nat := (2 ^ 64 - 1) ^^^ x

/-- Go conversion uint64(i) of a signed 64-bit integer. -/
def uint64OfInt (i : Int) : Nat := (i % (2 ^ 64 : Int)).toNat

/-- Flag-masked descriptor of a completion tag, as computed in the worker
loop: UserData &&& (complement of allFlagsMask). -/
def maskFd (ud : Nat) : Nat := ud &&& complement64 allFlagsMask

/-- The defined flag set of the completion-tag scheme. -/
def definedFlags : List Nat := [acceptDataFlag, addConnFlag, closeConnFlag, writeDataFlag]

theorem complement64_allFlagsMask : complement64 allFlagsMask = 2 ^ 60 - 1 := by
  decide

theorem mask_or_high (k d : Nat) (hk : 60 ≤ k) (hd : d < 2 ^ 60) :
    (2 ^ k ||| d) &&& (2 ^ 60 - 1) = d := by
  apply Nat.eq_of_testBit_eq
  intro i
  simp only [Nat.testBit_and, Nat.testBit_or, Nat.testBit_two_pow_sub_one]
  by_cases hi : i < 60
  · have hf : Nat.testBit (2 ^ k) i = false := Nat.testBit_two_pow_of_ne (by omega)
    simp [hf, hi]
  · have hdi : Nat.testBit d i = false :=
      Nat.testBit_lt_two_pow (lt_of_lt_of_le hd (Nat.pow_le_pow_right (by norm_num) (by omega)))
    simp [hi, hdi]

theorem high_flag_and_low (k d : Nat) (hk : 60 ≤ k) (hd : d < 2 ^ 60) :
    2 ^ k &&& d = 0 := by
  have hdk : Nat.testBit d k = false :=
    Nat.testBit_lt_two_pow (lt_of_lt_of_le hd (Nat.pow_le_pow_right (by norm_num) hk))
  rw [Nat.land_comm, Nat.and_two_pow, hdk]
  simp

/-- Claim C1: for every valid descriptor d (fitting below the flag bits) and every
flag f in the defined flag set, masking the flag bits off the composed tag
(f ||| d) recovers exactly d, the flag bits never overlap the descriptor
bits, and distinct flags share no set bits. -/
theorem completion_tag_masking (d f : Nat) (hd : d < 2 ^ 60) (hf : f ∈ definedFlags) :
    maskFd (f ||| d) = d ∧ f &&& d = 0 ∧
      ∀ g ∈ definedFlags, g ≠ f → f &&& g = 0 := by
  have hcompl : maskFd (f ||| d) = (f ||| d) &&& (2 ^ 60 - 1) := by
    rw [maskFd, complement64_allFlagsMask]
  simp only [definedFlags, acceptDataFlag, addConnFlag, closeConnFlag, writeDataFlag,
    List.mem_cons, List.not_mem_nil, or_false] at hf
  rcases hf with hf | hf | hf | hf <;> subst hf <;>
    refine ⟨by rw [hcompl]; exact mask_or_high _ d (by omega) hd,
      high_flag_and_low _ d (by omega) hd, ?_⟩ <;>
    · intro g hg hne
      simp only [definedFlags, acceptDataFlag, addConnFlag, closeConnFlag, writeDataFlag,
        List.mem_cons, List.not_mem_nil, or_false] at hg
      rcases hg with hg | hg | hg | hg <;> subst hg <;>
        first
          | exact absurd rfl hne
          | decide

/-- Witness for C1 at descriptor 5 and the accept flag. -/
theorem completion_tag_masking_witness :
    (5 : Nat) < 2 ^ 60 ∧ maskFd (acceptDataFlag ||| 5) = 5 := by
  refine ⟨by norm_num, ?_⟩
  exact (completion_tag_masking 5 acceptDataFlag (by norm_num)
    (by simp [definedFlags])).1

/-- Network addresses (net.Addr) are opaque to the event loop; a string
stands in for them. -/
abbrev Addr := String

/-- Errors of the gain error package that the excerpt produces or inspects. -/
inductive Err where
  /-- Sentinel errors.ErrConnectionIsMissing returned by the acceptor. -/
  | errConnectionIsMissing : Err
  /-- ErrorConnectionIsMissing(fd), the wrapped registry-inconsistency error. -/
  | connectionIsMissing (fd : Int) : Err
  /-- ErrorAddressNotFound(fd), the handoff-miss error. -/
  | addressNotFound (fd : Int) : Err
  /-- ErrorUnknownConnectionState(state). -/
  | unknownConnectionState (state : Nat) : Err
  /-- ErrConnectionQueueIsNil, returned by addConnToQueue without a queue. -/
  | connectionQueueIsNil : Err
  /-- Submission-queue exhaustion (GetSQE failure / SQE overflow). -/
  | sqeOverflow : Err
  /-- Abstract error produced by the environment (onRead or addNextRequest). -/
  | envErr (code : Nat) : Err
deriving DecidableEq, Repr

/-- Observable actions of the worker, in program order. -/
inductive Effect where
  /-- Closing-connections warning logged at the top of closeAllConns. -/
  | logWarnClosing : Effect
  /-- Error log carrying the logged error value. -/
  | logErr (e : Err) : Effect
  /-- Invalid-file-descriptor error log of the worker loop. -/
  | logInvalidFd (fd : Int) : Effect
  /-- Debug log of kernel-confirmed written bytes. -/
  | logDebugBytesWritten (fd : Int) (n : Int) : Effect
  /-- OnAccept event-handler callback. -/
  | onAccept (fd : Int) : Effect
  /-- OnRead event-handler callback. -/
  | onReadCb (fd : Int) : Effect
  /-- OnWrite event-handler callback with the kernel-confirmed byte count. -/
  | onWriteCb (fd : Int) (n : Int) : Effect
  /-- Submission of the next read/write operation (addNextRequest success). -/
  | submitNext (fd : Int) : Effect
  /-- Submission of a close operation (addCloseConnRequest success). -/
  | submitCloseReq (fd : Int) : Effect
  /-- Direct syscall close of a socket. -/
  | syscallClose (fd : Int) : Effect
  /-- Destruction of a tracked connection (closeConn). -/
  | destroyConn (fd : Int) : Effect
  /-- Loop-completion signal to the controller (notifyFinish). -/
  | notifyFinish : Effect
deriving DecidableEq, Repr

/-- Modelled from the spec: connection-state constants defined outside the
excerpt; only their distinctness matters to the dispatcher. -/
def connAccept : Nat := 0

/-- State constant for a connection with a read in flight. -/
def connRead : Nat := 1

/-- State constant for a connection with a write in flight. -/
def connWrite : Nat := 2

/-- State constant for a connection whose shutdown has begun. -/
def connClose : Nat := 3

/-- One tracked connection: descriptor, state-machine state, addresses,
buffer ownership, and write-progress accounting. -/
structure Connection where
  fd : Int
  state : Nat
  localAddr : Option Addr := none
  remoteAddr : Option Addr := none
  /-- True when the buffers are user-owned (setUserSpace was called). -/
  userSpace : Bool := false
  /-- Modelled from the spec: write-progress accounting (onKernelWrite);
  the kernel-confirmed byte counts in order of confirmation. -/
  acked : List Int := []
deriving DecidableEq, Repr

/-- Modelled from the spec: the connection registry maps descriptors to
tracked connections; a list of the currently tracked connections. -/
abbrev Registry := List Connection

/-- Lookup of a tracked connection by descriptor (connectionManager.getFd). -/
def getFd (reg : Registry) (fd : Int) : Option Connection :=
  reg.find? (fun c => c.fd = fd)

/-- Write back an in-place mutation of a tracked connection. -/
def updateConn (reg : Registry) (c : Connection) : Registry :=
  reg.map (fun x => if x.fd = c.fd then c else x)

/-- Removal of a connection from the registry (part of closeConn). -/
def removeConn (reg : Registry) (fd : Int) : Registry :=
  reg.filter (fun x => x.fd ≠ fd)

/-- Modelled from the spec: connectionManager.allClosed holds when the
registry reports zero open connections. -/
def allClosed (reg : Registry) : Bool := reg.isEmpty

/-- Concurrent address map (socketAddresses sync.Map): bindings from
descriptor to captured remote address. -/
abbrev AddrMap := List (Int × Addr)

/-- Load of the stored remote address for a descriptor (sync.Map.Load). -/
def addrLoad (m : AddrMap) (fd : Int) : Option Addr :=
  (m.find? (fun p => p.1 = fd)).map (fun p => p.2)

/-- Deletion of the binding for a descriptor (sync.Map.Delete). -/
def addrDelete (m : AddrMap) (fd : Int) : AddrMap :=
  m.filter (fun p => p.1 ≠ fd)

/-- Store of a remote address under a descriptor (setSocketAddr). -/
def addrStore (m : AddrMap) (fd : Int) (a : Addr) : AddrMap :=
  (fd, a) :: addrDelete m fd

/-- Mutable worker state touched by the event loop: the connection registry
and the concurrent address map. -/
structure WS where
  registry : Registry
  addrMap : AddrMap
deriving DecidableEq, Repr

/-- Dispatch of one completion event to the per-connection state machine
(consumerWorker.handleConn).  The results the environment would return for
the calls into missing code are passed in: onReadErr for c.onRead and
addNextErr for c.addNextRequest.  The returned connection is none when the
connection was destroyed (closeConn, modelled from the spec as destroying
the connection and removing it from the registry). -/
def handleConn (conn : Connection) (ud : Nat) (res : Int)
    (onReadErr addNextErr : Option Err) : Option Connection × List Effect :=
  if conn.state = connRead then
    match onReadErr with
    | none => (some conn, [Effect.onReadCb conn.fd])
    | some e => (none, [Effect.logErr e, Effect.destroyConn conn.fd])
  else if conn.state = connWrite then
    let conn1 := { conn with acked := conn.acked ++ [res], userSpace := true }
    let pre := [Effect.logDebugBytesWritten conn.fd res, Effect.onWriteCb conn.fd res]
    match addNextErr with
    | none => (some conn1, pre ++ [Effect.submitNext conn.fd])
    | some e => (none, pre ++ [Effect.logErr e, Effect.destroyConn conn.fd])
  else if conn.state = connClose then
    if ud &&& closeConnFlag > 0 then
      (none, [Effect.destroyConn conn.fd])
    else if ud &&& writeDataFlag > 0 then
      let conn1 := { conn with acked := conn.acked ++ [res], userSpace := true }
      (some conn1, [Effect.logDebugBytesWritten conn.fd res, Effect.onWriteCb conn.fd res])
    else (some conn, [])
  else
    (none, [Effect.logErr (Err.unknownConnectionState conn.state), Effect.destroyConn conn.fd])

/-- Lowest valid descriptor bound used by the loop: syscall.Stderr. -/
def stderrFd : Int := 2

/-- Body of the consumer-worker loop callback after the pre-dispatch
processEvent check, translated from consumerWorker.loop.  Returns the new
worker state, the effects in order, and the error value the callback
returns to the looper. -/
def consumerDispatch (localAddr : Option Addr) (onReadErr : Option Err)
    (addNextErr : Option Err) (ud : Nat) (res : Int) (s : WS) :
    WS × List Effect × Option Err :=
  if ud &&& addConnFlag > 0 then
    let fd := res
    match getFd s.registry fd with
    | none =>
        (s, [Effect.logErr (Err.connectionIsMissing fd), Effect.syscallClose fd], none)
    | some conn =>
        let conn1 := { conn with fd := res, localAddr := localAddr }
        let step :=
          match addrLoad s.addrMap conn1.fd with
          | some a =>
              (({ conn1 with remoteAddr := some a } : Connection), ([] : List Effect),
                addrDelete s.addrMap conn1.fd)
          | none =>
              (conn1, [Effect.logErr (Err.addressNotFound conn1.fd)], s.addrMap)
        let conn2 := { step.1 with userSpace := true }
        let submitEs :=
          match addNextErr with
          | none => [Effect.submitNext conn2.fd]
          | some _ => []
        ({ registry := updateConn s.registry conn2, addrMap := step.2.2 },
          step.2.1 ++ [Effect.onAccept conn2.fd] ++ submitEs, addNextErr)
  else
    let fd : Int := Int.ofNat (maskFd ud)
    if fd < stderrFd then
      (s, [Effect.logInvalidFd fd], none)
    else
      match getFd s.registry fd with
      | none =>
          (s, [Effect.logErr (Err.connectionIsMissing fd), Effect.syscallClose fd], none)
      | some conn =>
          let r := handleConn conn ud res onReadErr addNextErr
          let reg :=
            match r.1 with
            | some c2 => updateConn s.registry c2
            | none => removeConn s.registry conn.fd
          ({ s with registry := reg }, r.2, none)

/-- Inbound handoff via the fallback queue (consumerWorker.getConnsFromQueue):
drain the pending descriptors, claim each one, and submit its first
operation.  nextErr gives the result of c.addNextRequest per descriptor. -/
def getConnsFromQueue (localAddr : Option Addr) (nextErr : Int → Option Err) :
    List Int → WS → WS × List Effect
  | [], s => (s, [])
  | fd :: rest, s =>
    match getFd s.registry fd with
    | none =>
        let r := getConnsFromQueue localAddr nextErr rest s
        (r.1, Effect.logErr (Err.connectionIsMissing fd) :: r.2)
    | some conn =>
        let conn1 := { conn with fd := fd, localAddr := localAddr }
        let step :=
          match addrLoad s.addrMap fd with
          | some a =>
              (({ conn1 with remoteAddr := some a } : Connection), ([] : List Effect),
                addrDelete s.addrMap fd)
          | none =>
              (conn1, [Effect.logErr (Err.addressNotFound fd)], s.addrMap)
        let conn2 := { step.1 with userSpace := true }
        let submitEs :=
          match nextErr fd with
          | none => [Effect.submitNext fd]
          | some e => [Effect.logErr e]
        let s1 : WS := { registry := updateConn s.registry conn2, addrMap := step.2.2 }
        let r := getConnsFromQueue localAddr nextErr rest s1
        (r.1, step.2.1 ++ [Effect.onAccept fd] ++ submitEs ++ r.2)

/-- Outcome of one addCloseConnRequest attempt inside closeAllConns: a close
submission on success, an error log on failure (never a retry). -/
def addCloseOutcome (closeErr : Int → Option Err) (conn : Connection) : Effect :=
  match closeErr conn.fd with
  | none => Effect.submitCloseReq conn.fd
  | some e => Effect.logErr e

/-- Shutdown fan-out (consumerWorker.closeAllConns): log the warning, then
issue one close request per open tracked connection through
connectionManager.close.  Modelled from the spec where the excerpt ends: the
connection manager invokes the callback once for every open connection,
regardless of earlier failures.  closeErr gives the result of
addCloseConnRequest per descriptor. -/
def closeAllConns (reg : Registry) (closeErr : Int → Option Err) : List Effect :=
  Effect.logWarnClosing :: reg.map (addCloseOutcome closeErr)

/-- Loop-exit condition of the consumer loop (c.loopFinishCondition):
signals loop completion exactly when the registry reports all connections
closed. -/
def loopFinishCondition (reg : Registry) : Bool × List Effect :=
  if allClosed reg then (true, [Effect.notifyFinish]) else (false, [])

/-- Fallback-queue handoff entry point (consumerWorker.addConnToQueue):
fails with the distinguished error when no queue exists. -/
def addConnToQueue (queue : Option (List Int)) (fd : Int) :
    Option (List Int) × Option Err :=
  match queue with
  | none => (none, some Err.connectionQueueIsNil)
  | some q => (some (q ++ [fd]), none)

/-- One submission-queue entry as the acceptor fills it in: the accept
opcode flag, the listening descriptor, and the completion tag. -/
structure SQE where
  isAccept : Bool
  fd : Int
  userData : Nat
deriving DecidableEq, Repr

/-- The ring as the acceptor sees it: the entries submitted so far, and
whether GetSQE can still hand out an entry (submission queue not full). -/
structure Ring where
  sqes : List SQE
  sqeAvail : Bool
deriving DecidableEq, Repr

/-- The acceptor: bound to one ring and one listening descriptor. -/
structure Acceptor where
  ring : Ring
  fd : Int
deriving DecidableEq, Repr

/-- Submission of one accept operation (acceptor.addAcceptRequest): obtain
an SQE, prepare an accept on the listening descriptor, and tag it with
acceptDataFlag composed with the descriptor. -/
def addAcceptRequest (a : Acceptor) : Acceptor × Option Err :=
  if a.ring.sqeAvail then
    ({ a with ring :=
        { a.ring with sqes := a.ring.sqes ++
            [{ isAccept := true, fd := a.fd,
               userData := acceptDataFlag ||| uint64OfInt a.fd }] } }, none)
  else
    (a, some Err.sqeOverflow)

/-- Accept submission for the tracked listener (acceptor.addAcceptConnRequest):
submit the accept, then look up the tracked connection for the listening
descriptor and move it to the accepting state; the distinguished
connection-missing error is returned when no such connection exists. -/
def addAcceptConnRequest (a : Acceptor) (reg : Registry) :
    Acceptor × Registry × Option Err :=
  let r := addAcceptRequest a
  match r.2 with
  | some e => (r.1, reg, some e)
  | none =>
    match getFd reg a.fd with
    | none => (r.1, reg, some Err.errConnectionIsMissing)
    | some conn => (r.1, updateConn reg { conn with state := connAccept }, none)

/-- Modelled from the spec: the round-robin load balancer (implementation
outside the excerpt, exercised by the in-repository test) keeps the ordered
worker pool and a mutable cursor initialized to 0. -/
structure RoundRobinLB (α : Type) where
  pool : List α
  cursor : Nat := 0
deriving Repr

/-- Registration appends a worker to the pool. -/
def rrRegister {α : Type} (lb : RoundRobinLB α) (w : α) : RoundRobinLB α :=
  { lb with pool := lb.pool ++ [w] }

/-- Modelled from the spec: each next call returns pool[c], then sets the
cursor to (c+1) mod the pool length; the hint is always absent and ignored. -/
def rrNext {α : Type} (lb : RoundRobinLB α) : Option α × RoundRobinLB α :=
  (lb.pool[lb.cursor]?, { lb with cursor := (lb.cursor + 1) % lb.pool.length })

/-- The workers returned by n successive next calls on the round-robin
balancer, in call order. -/
def rrPicks {α : Type} (lb : RoundRobinLB α) : Nat → List (Option α)
  | 0 => []
  | n + 1 =>
    let r := rrNext lb
    r.1 :: rrPicks r.2 n

/-- Modelled from the spec: the least-connections scan over the pool tail,
carrying the index and count of the best worker so far and the index of the
next worker to examine; only a strictly smaller fresh count displaces the
current best, so the first worker attaining the minimum wins. -/
def lcScan (best : Nat) (bestCnt : Nat) (i : Nat) : List Nat → Nat
  | [] => best
  | c :: rest =>
    if c < bestCnt then lcScan i c (i + 1) rest
    else lcScan best bestCnt (i + 1) rest

/-- Modelled from the spec: each least-connections next call linearly scans
the registration-ordered pool of fresh active-connection counts and returns
the index of the first worker attaining the minimum count. -/
def lcNextIdx (counts : List Nat) : Nat :=
  match counts with
  | [] => 0
  | c :: rest => lcScan 0 c 1 rest

/-- The test-double worker loop (testWorker.loop) increments the active
connection count of the picked worker; this iterates pick-then-serve n
times and records the picked indices. -/
def lcScenario : Nat → List Nat → List Nat
  | 0, _ => []
  | n + 1, counts =>
    let i := lcNextIdx counts
    i :: lcScenario n (counts.set i (counts.getD i 0 + 1))

theorem getFd_removeConn (reg : Registry) (fd : Int) :
    getFd (removeConn reg fd) fd = none := by
  rw [getFd, List.find?_eq_none]
  intro c hc
  have h2 := (List.mem_filter.mp hc).2
  simp only [decide_eq_true_eq] at h2 ⊢
  exact h2

theorem addrLoad_addrDelete (m : AddrMap) (fd : Int) :
    addrLoad (addrDelete m fd) fd = none := by
  have h : List.find? (fun p => p.1 = fd) (addrDelete m fd) = none := by
    rw [List.find?_eq_none]
    intro p hp
    have h2 := (List.mem_filter.mp hp).2
    simp only [decide_eq_true_eq] at h2 ⊢
    exact h2
  rw [addrLoad, h]
  rfl

theorem getFd_updateConn (reg : Registry) (c : Connection)
    (h : (getFd reg c.fd).isSome) :
    getFd (updateConn reg c) c.fd = some c := by
  induction reg with
  | nil => simp [getFd] at h
  | cons x xs ih =>
    by_cases hx : x.fd = c.fd
    · simp [getFd, updateConn, hx]
    · have h2 : (getFd xs c.fd).isSome := by
        simpa [getFd, List.find?_cons, hx] using h
      simp only [getFd, updateConn, List.map_cons, if_neg hx] at *
      rw [List.find?_cons_of_neg _ (by simpa using hx)]
      exact ih h2

/-- Claim C2: for a connection in the closing state, a completion is
dispatched by the flag on its tag.  A close-flag completion destroys the
connection (handleConn returns no connection, the only effect is the
destruction) and the dispatcher removes it from the registry; a
write-data-flag completion fires the on-write callback with the
kernel-confirmed byte count and flips the buffers to user-owned, but never
submits a next read or write operation. -/
theorem closing_state_dispatch (conn : Connection) (ud : Nat) (res : Int)
    (onReadErr addNextErr : Option Err) (hst : conn.state = connClose) :
    (ud &&& closeConnFlag > 0 →
      handleConn conn ud res onReadErr addNextErr = (none, [Effect.destroyConn conn.fd]) ∧
      ∀ (la : Option Addr) (s : WS), ud &&& addConnFlag = 0 →
        Int.ofNat (maskFd ud) = conn.fd →
        ¬ Int.ofNat (maskFd ud) < stderrFd →
        getFd s.registry conn.fd = some conn →
        getFd (consumerDispatch la onReadErr addNextErr ud res s).1.registry conn.fd = none) ∧
    (ud &&& closeConnFlag = 0 → ud &&& writeDataFlag > 0 →
      handleConn conn ud res onReadErr addNextErr =
        (some { conn with acked := conn.acked ++ [res], userSpace := true },
          [Effect.logDebugBytesWritten conn.fd res, Effect.onWriteCb conn.fd res]) ∧
      Effect.submitNext conn.fd ∉ (handleConn conn ud res onReadErr addNextErr).2) := by
  constructor
  · intro hcf
    have heq : handleConn conn ud res onReadErr addNextErr =
        (none, [Effect.destroyConn conn.fd]) := by
      simp [handleConn, hst, connRead, connWrite, connClose, hcf]
    refine ⟨heq, ?_⟩
    intro la s haddf hm hge hreg
    have haddf2 : ¬ ud &&& addConnFlag > 0 := by omega
    simp only [consumerDispatch, if_neg haddf2, if_neg (hm ▸ hge), hm, hreg, heq]
    exact getFd_removeConn s.registry conn.fd
  · intro hcf hwf
    have hcf2 : ¬ ud &&& closeConnFlag > 0 := by omega
    have heq : handleConn conn ud res onReadErr addNextErr =
        (some { conn with acked := conn.acked ++ [res], userSpace := true },
          [Effect.logDebugBytesWritten conn.fd res, Effect.onWriteCb conn.fd res]) := by
      simp [handleConn, hst, connRead, connWrite, connClose, hcf2, hwf]
    refine ⟨heq, ?_⟩
    rw [heq]
    simp

/-- Witness for C2: a closing connection at descriptor 5, first under a
close-flag completion, then under a write-data completion of 17 bytes. -/
theorem closing_state_dispatch_witness :
    handleConn { fd := 5, state := connClose } (closeConnFlag ||| 5) 0 none none =
      (none, [Effect.destroyConn 5]) ∧
    handleConn { fd := 5, state := connClose } (writeDataFlag ||| 5) 17 none none =
      (some { fd := 5, state := connClose, acked := [17], userSpace := true },
        [Effect.logDebugBytesWritten 5 17, Effect.onWriteCb 5 17]) := by
  constructor
  · exact ((closing_state_dispatch { fd := 5, state := connClose }
      (closeConnFlag ||| 5) 0 none none rfl).1 (by decide)).1
  · exact ((closing_state_dispatch { fd := 5, state := connClose }
      (writeDataFlag ||| 5) 17 none none rfl).2 (by decide) (by decide)).1

/-- Claim C8: a completion for a tracked connection whose state is none of
the recognized states makes the worker report the unknown-connection-state
error and unconditionally force-close that connection, while the loop
callback returns no error, so the event loop continues. -/
theorem unknown_state_force_close (conn : Connection) (ud : Nat) (res : Int)
    (onReadErr addNextErr : Option Err)
    (h1 : conn.state ≠ connRead) (h2 : conn.state ≠ connWrite)
    (h3 : conn.state ≠ connClose) :
    handleConn conn ud res onReadErr addNextErr =
      (none, [Effect.logErr (Err.unknownConnectionState conn.state),
              Effect.destroyConn conn.fd]) ∧
    ∀ (la : Option Addr) (s : WS), ud &&& addConnFlag = 0 →
      Int.ofNat (maskFd ud) = conn.fd →
      ¬ Int.ofNat (maskFd ud) < stderrFd →
      getFd s.registry conn.fd = some conn →
      (consumerDispatch la onReadErr addNextErr ud res s).2.1 =
          [Effect.logErr (Err.unknownConnectionState conn.state),
            Effect.destroyConn conn.fd] ∧
        (consumerDispatch la onReadErr addNextErr ud res s).2.2 = none := by
  have heq : handleConn conn ud res onReadErr addNextErr =
      (none, [Effect.logErr (Err.unknownConnectionState conn.state),
              Effect.destroyConn conn.fd]) := by
    simp [handleConn, h1, h2, h3]
  refine ⟨heq, ?_⟩
  intro la s haddf hm hge hreg
  have haddf2 : ¬ ud &&& addConnFlag > 0 := by omega
  simp only [consumerDispatch, if_neg haddf2, if_neg (hm ▸ hge), hm, hreg, heq]
  simp

/-- Witness for C8: a tracked connection at descriptor 5 in the unrecognized
state 7, reached through the dispatcher with a plain tag. -/
theorem unknown_state_force_close_witness :
    handleConn { fd := 5, state := 7 } 5 0 none none =
      (none, [Effect.logErr (Err.unknownConnectionState 7), Effect.destroyConn 5]) ∧
    (consumerDispatch none none none 5 0
        { registry := [{ fd := 5, state := 7 }], addrMap := [] }).2.2 = none := by
  have h := unknown_state_force_close { fd := 5, state := 7 } 5 0 none none
    (by decide) (by decide) (by decide)
  exact ⟨h.1, (h.2 none { registry := [{ fd := 5, state := 7 }], addrMap := [] }
    (by decide) (by decide) (by decide) (by decide)).2⟩

/-- Claim C9 (amended): a completion event that reaches the dispatcher
without the added-connection flag and whose flag-masked descriptor is below
the lowest valid descriptor value (stderr) is logged and dropped: the worker
state is unchanged, the only effect is the invalid-descriptor log (in
particular no registry lookup result is acted on), and no error is returned. -/
theorem invalid_fd_drop (la : Option Addr) (onReadErr addNextErr : Option Err)
    (ud : Nat) (res : Int) (s : WS)
    (hflag : ud &&& addConnFlag = 0)
    (hlow : Int.ofNat (maskFd ud) < stderrFd) :
    consumerDispatch la onReadErr addNextErr ud res s =
      (s, [Effect.logInvalidFd (Int.ofNat (maskFd ud))], none) := by
  have hflag2 : ¬ ud &&& addConnFlag > 0 := by omega
  simp only [consumerDispatch, if_neg hflag2, if_pos hlow]

/-- Witness for C9 (amended) at the flagless tag 1, whose masked descriptor
1 is below stderr. -/
theorem invalid_fd_drop_witness :
    consumerDispatch none none none 1 0 { registry := [], addrMap := [] } =
      ({ registry := [], addrMap := [] }, [Effect.logInvalidFd 1], none) := by
  have h := invalid_fd_drop none none none 1 0 { registry := [], addrMap := [] }
    (by decide) (by decide)
  simpa using h

/-- Counterexample to C9 as stated: the completion tag consisting of the
added-connection flag alone has flag-masked descriptor 0, below the lowest
valid value, yet the worker does not log-and-drop it: the dispatcher takes
the added-connection path, performs a registry lookup on the result
descriptor, and mutates the tracked connection. -/
theorem invalid_fd_drop_counterexample :
    Int.ofNat (maskFd addConnFlag) < stderrFd ∧
    consumerDispatch (some "a") none none addConnFlag 5
        { registry := [{ fd := 5, state := connAccept }], addrMap := [] } ≠
      ({ registry := [{ fd := 5, state := connAccept }], addrMap := [] },
        [Effect.logInvalidFd (Int.ofNat (maskFd addConnFlag))], none) := by
  decide

/-- Claim C6: claiming a handed-off descriptor whose remote address is in
the concurrent address map attaches the address and deletes the map entry,
on the fallback-queue path and on the added-connection completion path
alike; the stored address is read-and-deleted exactly once, and a second
claim of the same descriptor finds no entry and logs instead of receiving
stale data. -/
theorem getConnsFromQueue_single_miss (la : Option Addr) (nextErr : Int → Option Err)
    (fd : Int) (s : WS) (conn : Connection)
    (hconn : getFd s.registry fd = some conn)
    (hmiss : addrLoad s.addrMap fd = none)
    (hnext : nextErr fd = none) :
    getConnsFromQueue la nextErr [fd] s =
      ({ registry := updateConn s.registry
            { conn with fd := fd, localAddr := la, userSpace := true },
          addrMap := s.addrMap },
        [Effect.logErr (Err.addressNotFound fd), Effect.onAccept fd,
          Effect.submitNext fd]) := by
  simp [getConnsFromQueue, hconn, hmiss, hnext]

theorem handoff_claim_drains (s : WS) (fd : Int) (a : Addr) (conn : Connection)
    (la : Option Addr) (nextErr : Int → Option Err) (ud : Nat)
    (onReadErr addNextErr : Option Err)
    (hconn : getFd s.registry fd = some conn)
    (haddr : addrLoad s.addrMap fd = some a)
    (hnext : nextErr fd = none)
    (hud : ud &&& addConnFlag > 0) :
    (getConnsFromQueue la nextErr [fd] s).1.addrMap = addrDelete s.addrMap fd ∧
    addrLoad (getConnsFromQueue la nextErr [fd] s).1.addrMap fd = none ∧
    getFd (getConnsFromQueue la nextErr [fd] s).1.registry fd =
      some { conn with fd := fd, localAddr := la, remoteAddr := some a, userSpace := true } ∧
    (getConnsFromQueue la nextErr [fd] s).2 =
      [Effect.onAccept fd, Effect.submitNext fd] ∧
    (Effect.logErr (Err.addressNotFound fd) ∈
        (getConnsFromQueue la nextErr [fd] (getConnsFromQueue la nextErr [fd] s).1).2 ∧
      (getConnsFromQueue la nextErr [fd] (getConnsFromQueue la nextErr [fd] s).1).1.addrMap =
        (getConnsFromQueue la nextErr [fd] s).1.addrMap) ∧
    (consumerDispatch la onReadErr addNextErr ud fd s).1.addrMap =
        addrDelete s.addrMap fd ∧
      addrLoad (consumerDispatch la onReadErr addNextErr ud fd s).1.addrMap fd = none := by
  have hstep : getConnsFromQueue la nextErr [fd] s =
      ({ registry := updateConn s.registry
            { conn with fd := fd, localAddr := la, remoteAddr := some a, userSpace := true },
          addrMap := addrDelete s.addrMap fd },
        [Effect.onAccept fd, Effect.submitNext fd]) := by
    simp [getConnsFromQueue, hconn, haddr, hnext]
  have hfd2 : getFd (getConnsFromQueue la nextErr [fd] s).1.registry fd =
      some { conn with fd := fd, localAddr := la, remoteAddr := some a, userSpace := true } := by
    rw [hstep]
    exact getFd_updateConn s.registry _ (by rw [hconn]; rfl)
  have hmap2 : addrLoad (getConnsFromQueue la nextErr [fd] s).1.addrMap fd = none := by
    rw [hstep]
    exact addrLoad_addrDelete s.addrMap fd
  refine ⟨by rw [hstep], hmap2, hfd2, by rw [hstep], ?_, ?_⟩
  · have hsecond := getConnsFromQueue_single_miss la nextErr fd
      (getConnsFromQueue la nextErr [fd] s).1
      { conn with fd := fd, localAddr := la, remoteAddr := some a, userSpace := true }
      hfd2 hmap2 hnext
    rw [hsecond]
    exact ⟨by simp, rfl⟩
  · have hdisp : (consumerDispatch la onReadErr addNextErr ud fd s).1.addrMap =
        addrDelete s.addrMap fd := by
      simp [consumerDispatch, if_pos hud, hconn, haddr]
    exact ⟨hdisp, by rw [hdisp]; exact addrLoad_addrDelete s.addrMap fd⟩

/-- Witness for C6: descriptor 5 with stored address, claimed twice through
the fallback queue and once through an added-connection completion. -/
theorem handoff_claim_drains_witness :
    (getConnsFromQueue (some "la") (fun _ => none) [5]
        { registry := [{ fd := 5, state := connAccept }], addrMap := [(5, "ra")] }).1.addrMap =
      addrDelete [(5, "ra")] 5 := by
  exact (handoff_claim_drains
    { registry := [{ fd := 5, state := connAccept }], addrMap := [(5, "ra")] }
    5 "ra" { fd := 5, state := connAccept } (some "la") (fun _ => none)
    addConnFlag none none (by decide) (by decide) rfl (by decide)).1

/-- Claim C7: a handoff claim whose remote address is absent from the
concurrent map is logged and tolerated: the connection still proceeds with
buffers user-owned, on-accept fired and the first operation submitted, its
remote address simply stays absent. -/
theorem handoff_miss_tolerated (s : WS) (fd : Int) (conn : Connection)
    (la : Option Addr) (nextErr : Int → Option Err)
    (hconn : getFd s.registry fd = some conn)
    (hmiss : addrLoad s.addrMap fd = none)
    (hnext : nextErr fd = none)
    (hremote : conn.remoteAddr = none) :
    (getConnsFromQueue la nextErr [fd] s).2 =
      [Effect.logErr (Err.addressNotFound fd), Effect.onAccept fd,
        Effect.submitNext fd] ∧
    getFd (getConnsFromQueue la nextErr [fd] s).1.registry fd =
      some { conn with fd := fd, localAddr := la, userSpace := true } ∧
    ({ conn with fd := fd, localAddr := la, userSpace := true } : Connection).remoteAddr =
      none := by
  have hstep : getConnsFromQueue la nextErr [fd] s =
      ({ registry := updateConn s.registry
            { conn with fd := fd, localAddr := la, userSpace := true },
          addrMap := s.addrMap },
        [Effect.logErr (Err.addressNotFound fd), Effect.onAccept fd,
          Effect.submitNext fd]) := by
    simp [getConnsFromQueue, hconn, hmiss, hnext]
  refine ⟨by rw [hstep], ?_, hremote⟩
  rw [hstep]
  exact getFd_updateConn s.registry _ (by rw [hconn]; rfl)

/-- Witness for C7: descriptor 5 claimed with an empty address map. -/
theorem handoff_miss_tolerated_witness :
    (getConnsFromQueue (some "la") (fun _ => none) [5]
        { registry := [{ fd := 5, state := connAccept }], addrMap := [] }).2 =
      [Effect.logErr (Err.addressNotFound 5), Effect.onAccept 5,
        Effect.submitNext 5] := by
  exact (handoff_miss_tolerated
    { registry := [{ fd := 5, state := connAccept }], addrMap := [] }
    5 { fd := 5, state := connAccept } (some "la") (fun _ => none)
    (by decide) (by decide) rfl (by decide)).1

/-- Claim C3: on shutdown with K open tracked connections the worker issues
exactly one close request per open connection — K attempts in total, in
registry order, each producing either a close submission or an error log, a
failure never blocking the remaining connections — and the loop-finish
condition signals loop completion exactly when the registry reports zero
open connections, never before. -/
theorem shutdown_close_fanout (reg : Registry) (closeErr : Int → Option Err) :
    (closeAllConns reg closeErr).length = 1 + reg.length ∧
    (∀ i : Nat, (closeAllConns reg closeErr)[i + 1]? =
      (reg[i]?).map (addCloseOutcome closeErr)) ∧
    (∀ conn ∈ reg, ∀ e, closeErr conn.fd = some e →
      Effect.logErr e ∈ closeAllConns reg closeErr) ∧
    (∀ conn ∈ reg, closeErr conn.fd = none →
      Effect.submitCloseReq conn.fd ∈ closeAllConns reg closeErr) ∧
    ((loopFinishCondition reg).1 = true ↔ allClosed reg = true) ∧
    (Effect.notifyFinish ∈ (loopFinishCondition reg).2 ↔ allClosed reg = true) := by
  refine ⟨?_, ?_, ?_, ?_, ?_, ?_⟩
  · simp [closeAllConns]
    omega
  · intro i
    simp [closeAllConns]
  · intro conn hc e he
    have hout : addCloseOutcome closeErr conn = Effect.logErr e := by
      simp [addCloseOutcome, he]
    exact List.mem_cons_of_mem _ (hout ▸ List.mem_map_of_mem _ hc)
  · intro conn hc he
    have hout : addCloseOutcome closeErr conn = Effect.submitCloseReq conn.fd := by
      simp [addCloseOutcome, he]
    exact List.mem_cons_of_mem _ (hout ▸ List.mem_map_of_mem _ hc)
  · by_cases h : allClosed reg <;> simp [loopFinishCondition, h]
  · by_cases h : allClosed reg <;> simp [loopFinishCondition, h]

/-- Witness for C3: two open connections at descriptors 5 and 7; the close
submission for 7 fails and is logged, the one for 5 succeeds, and a
nonempty registry does not signal completion. -/
theorem shutdown_close_fanout_witness :
    Effect.logErr (Err.envErr 3) ∈ closeAllConns
        [{ fd := 5, state := connClose }, { fd := 7, state := connClose }]
        (fun fd => if fd = 7 then some (Err.envErr 3) else none) ∧
    Effect.submitCloseReq 5 ∈ closeAllConns
        [{ fd := 5, state := connClose }, { fd := 7, state := connClose }]
        (fun fd => if fd = 7 then some (Err.envErr 3) else none) ∧
    ¬ (loopFinishCondition [{ fd := 5, state := connClose }]).1 = true := by
  have h := shutdown_close_fanout
    [{ fd := 5, state := connClose }, { fd := 7, state := connClose }]
    (fun fd => if fd = 7 then some (Err.envErr 3) else none)
  refine ⟨h.2.2.1 { fd := 7, state := connClose } (by decide) (Err.envErr 3) (by decide),
    h.2.2.2.1 { fd := 5, state := connClose } (by decide) (by decide), ?_⟩
  have h2 := (shutdown_close_fanout [{ fd := 5, state := connClose }] fun _ => none).2.2.2.2.1
  intro hc
  have := h2.mp hc
  simp [allClosed] at this

/-- Claim C10: addAcceptConnRequest is not atomic on failure.  When the
submission queue has room but no tracked connection exists for the
listening descriptor, it returns the distinguished connection-missing
error, yet the accept operation tagged with the accept flag and the
listening descriptor has already been enqueued on the ring and is not
rolled back. -/
theorem accept_submit_not_rolled_back (a : Acceptor) (reg : Registry)
    (havail : a.ring.sqeAvail = true)
    (hmiss : getFd reg a.fd = none) :
    (addAcceptConnRequest a reg).2.2 = some Err.errConnectionIsMissing ∧
    (addAcceptConnRequest a reg).1.ring.sqes =
      a.ring.sqes ++
        [{ isAccept := true, fd := a.fd,
           userData := acceptDataFlag ||| uint64OfInt a.fd }] := by
  constructor <;>
    simp [addAcceptConnRequest, addAcceptRequest, havail, hmiss]

/-- Witness for C10: a ring with a free submission slot and an empty
registry at listening descriptor 9. -/
theorem accept_submit_not_rolled_back_witness :
    (addAcceptConnRequest { ring := { sqes := [], sqeAvail := true }, fd := 9 } []).2.2 =
      some Err.errConnectionIsMissing ∧
    (addAcceptConnRequest { ring := { sqes := [], sqeAvail := true }, fd := 9 } []).1.ring.sqes =
      [] ++ [{ isAccept := true, fd := 9, userData := acceptDataFlag ||| uint64OfInt 9 }] := by
  exact accept_submit_not_rolled_back
    { ring := { sqes := [], sqeAvail := true }, fd := 9 } [] rfl rfl

theorem rrPicks_formula {α : Type} (n : Nat) (lb : RoundRobinLB α)
    (hne : lb.pool ≠ []) (hc : lb.cursor < lb.pool.length) :
    rrPicks lb n =
      (List.range n).map (fun i => lb.pool[(lb.cursor + i) % lb.pool.length]?) := by
  induction n generalizing lb with
  | zero => simp [rrPicks]
  | succ n ih =>
    have hlen : 0 < lb.pool.length := List.length_pos.mpr hne
    have h1 : rrPicks lb (n + 1) =
        lb.pool[lb.cursor]? ::
          rrPicks { pool := lb.pool, cursor := (lb.cursor + 1) % lb.pool.length } n := by
      simp [rrPicks, rrNext]
    rw [h1, ih { pool := lb.pool, cursor := (lb.cursor + 1) % lb.pool.length }
      hne (Nat.mod_lt _ hlen)]
    rw [List.range_succ_eq_map, List.map_cons, List.map_map]
    congr 1
    · simp [Nat.mod_eq_of_lt hc]
    · have hfun : (fun i => lb.pool[((lb.cursor + 1) % lb.pool.length + i) % lb.pool.length]?) =
          ((fun i => lb.pool[(lb.cursor + i) % lb.pool.length]?) ∘ Nat.succ) := by
        funext i
        have hidx : ((lb.cursor + 1) % lb.pool.length + i) % lb.pool.length =
            (lb.cursor + Nat.succ i) % lb.pool.length := by
          rw [Nat.mod_add_mod]
          congr 1
          omega
        simp [hidx]
      rw [hfun]

/-- Claim C4: the round-robin balancer returns pool[c] and advances the
cursor to (c+1) mod N on each next call; from the initial cursor the first
N calls return each registered worker exactly once in registration order,
and the pick sequence repeats identically with period N. -/
theorem round_robin_cycle {α : Type} (lb : RoundRobinLB α)
    (hne : lb.pool ≠ []) (hc : lb.cursor < lb.pool.length) :
    rrNext lb =
      (lb.pool[lb.cursor]?, { lb with cursor := (lb.cursor + 1) % lb.pool.length }) ∧
    (lb.cursor = 0 → rrPicks lb lb.pool.length = lb.pool.map some) ∧
    (∀ n i : Nat, i + lb.pool.length < n →
      (rrPicks lb n)[i + lb.pool.length]? = (rrPicks lb n)[i]?) := by
  refine ⟨rfl, ?_, ?_⟩
  · intro h0
    rw [rrPicks_formula lb.pool.length lb hne hc, h0]
    apply List.ext_getElem?
    intro j
    by_cases hj : j < lb.pool.length
    · rw [List.getElem?_map, List.getElem?_map, List.getElem?_range hj,
        List.getElem?_eq_getElem hj]
      simp [Nat.mod_eq_of_lt hj, List.getElem?_eq_getElem hj]
    · have h1 : (List.range lb.pool.length)[j]? = none := by
        simp [List.getElem?_eq_none_iff]
        omega
      have h2 : lb.pool[j]? = none := by
        simp [List.getElem?_eq_none_iff]
        omega
      rw [List.getElem?_map, List.getElem?_map, h1, h2]
      rfl
  · intro n i hi
    rw [rrPicks_formula n lb hne hc]
    have hlt : i < n := by omega
    rw [List.getElem?_map, List.getElem?_map, List.getElem?_range hi,
      List.getElem?_range hlt]
    have hidx : (lb.cursor + (i + lb.pool.length)) % lb.pool.length =
        (lb.cursor + i) % lb.pool.length := by
      rw [← Nat.add_assoc, Nat.add_mod_right]
    simp [hidx]

/-- Witness for C4: four workers registered in order 10, 20, 30, 40 with
the cursor at 0; four calls return them in registration order. -/
theorem round_robin_cycle_witness :
    rrPicks { pool := [10, 20, 30, 40], cursor := 0 } 4 =
      [some 10, some 20, some 30, some 40] := by
  have h := (round_robin_cycle { pool := [10, 20, 30, 40], cursor := 0 }
    (by decide) (by decide)).2.1 rfl
  simpa using h

theorem lcScan_spec (l : List Nat) : ∀ best bestCnt i : Nat,
    (lcScan best bestCnt i l = best ∧ ∀ j, j < l.length → bestCnt ≤ l.getD j 0) ∨
    (∃ j, j < l.length ∧ lcScan best bestCnt i l = i + j ∧ l.getD j 0 < bestCnt ∧
      (∀ k, k < l.length → l.getD j 0 ≤ l.getD k 0) ∧
      (∀ k, k < j → l.getD j 0 < l.getD k 0)) := by
  induction l with
  | nil =>
    intro best bestCnt i
    left
    exact ⟨rfl, fun j hj => absurd hj (by simp)⟩
  | cons c rest ih =>
    intro best bestCnt i
    by_cases hcb : c < bestCnt
    · rcases ih i c (i + 1) with ⟨heq, hmin⟩ | ⟨j, hj, heq, hlt, hmin, hfirst⟩
      · right
        refine ⟨0, by simp, ?_, by simpa using hcb, ?_, ?_⟩
        · rw [lcScan, if_pos hcb, heq]
          omega
        · intro k hk
          cases k with
          | zero => simp
          | succ k2 =>
            simp only [List.getD_cons_zero, List.getD_cons_succ]
            exact hmin k2 (by simpa using hk)
        · intro k hk
          omega
      · right
        refine ⟨j + 1, by simpa using hj, ?_, ?_, ?_, ?_⟩
        · rw [lcScan, if_pos hcb, heq]
          omega
        · simp only [List.getD_cons_succ]
          omega
        · intro k hk
          cases k with
          | zero =>
            simp only [List.getD_cons_zero, List.getD_cons_succ]
            omega
          | succ k2 =>
            simp only [List.getD_cons_succ]
            exact hmin k2 (by simpa using hk)
        · intro k hk
          cases k with
          | zero =>
            simp only [List.getD_cons_zero, List.getD_cons_succ]
            omega
          | succ k2 =>
            simp only [List.getD_cons_succ]
            exact hfirst k2 (by omega)
    · rcases ih best bestCnt (i + 1) with ⟨heq, hmin⟩ | ⟨j, hj, heq, hlt, hmin, hfirst⟩
      · left
        refine ⟨by rw [lcScan, if_neg hcb, heq], ?_⟩
        intro j hj
        cases j with
        | zero =>
          simp only [List.getD_cons_zero]
          omega
        | succ j2 =>
          simp only [List.getD_cons_succ]
          exact hmin j2 (by simpa using hj)
      · right
        refine ⟨j + 1, by simpa using hj, ?_, ?_, ?_, ?_⟩
        · rw [lcScan, if_neg hcb, heq]
          omega
        · simp only [List.getD_cons_succ]
          omega
        · intro k hk
          cases k with
          | zero =>
            simp only [List.getD_cons_zero, List.getD_cons_succ]
            omega
          | succ k2 =>
            simp only [List.getD_cons_succ]
            exact hmin k2 (by simpa using hk)
        · intro k hk
          cases k with
          | zero =>
            simp only [List.getD_cons_zero, List.getD_cons_succ]
            omega
          | succ k2 =>
            simp only [List.getD_cons_succ]
            exact hfirst k2 (by omega)

theorem lcNextIdx_spec (counts : List Nat) (h : counts ≠ []) :
    lcNextIdx counts < counts.length ∧
    (∀ j, j < counts.length → counts.getD (lcNextIdx counts) 0 ≤ counts.getD j 0) ∧
    (∀ j, j < lcNextIdx counts → counts.getD (lcNextIdx counts) 0 < counts.getD j 0) := by
  match counts with
  | [] => exact absurd rfl h
  | c :: rest =>
    have hidx : lcNextIdx (c :: rest) = lcScan 0 c 1 rest := rfl
    rcases lcScan_spec rest 0 c 1 with ⟨heq, hmin⟩ | ⟨j, hj, heq, hlt, hmin, hfirst⟩
    · rw [hidx, heq]
      refine ⟨by simp, ?_, fun j hj => absurd hj (by omega)⟩
      intro j hj
      cases j with
      | zero => simp
      | succ j2 =>
        simp only [List.getD_cons_zero, List.getD_cons_succ]
        exact hmin j2 (by simpa using hj)
    · rw [hidx, heq]
      have h1j : (1 + j : Nat) = j + 1 := by omega
      rw [h1j]
      refine ⟨by simpa using hj, ?_, ?_⟩
      · intro k hk
        cases k with
        | zero =>
          simp only [List.getD_cons_zero, List.getD_cons_succ]
          omega
        | succ k2 =>
          simp only [List.getD_cons_succ]
          exact hmin k2 (by simpa using hk)
      · intro k hk
        cases k with
        | zero =>
          simp only [List.getD_cons_zero, List.getD_cons_succ]
          omega
        | succ k2 =>
          simp only [List.getD_cons_succ]
          exact hfirst k2 (by omega)

/-- Claim C5: each least-connections next call scans the fresh counts and
returns the first worker (lowest registration index) attaining the minimum
observed count; in the concrete scenario of four workers with counts
[1,0,2,1], each pick incrementing the picked count before the next call,
the successive picks are workers 1, 0, 1, 3, 0, 1, 2, 3. -/
theorem least_connections_pick (counts : List Nat) (h : counts ≠ []) :
    (lcNextIdx counts < counts.length ∧
      (∀ j, j < counts.length → counts.getD (lcNextIdx counts) 0 ≤ counts.getD j 0) ∧
      (∀ j, j < lcNextIdx counts → counts.getD (lcNextIdx counts) 0 < counts.getD j 0)) ∧
    lcScenario 8 [1, 0, 2, 1] = [1, 0, 1, 3, 0, 1, 2, 3] :=
  ⟨lcNextIdx_spec counts h, by decide⟩

/-- Witness for C5 at the test scenario counts [1,0,2,1]. -/
theorem least_connections_pick_witness :
    lcNextIdx [1, 0, 2, 1] < 4 ∧
    lcScenario 8 [1, 0, 2, 1] = [1, 0, 1, 3, 0, 1, 2, 3] := by
  have h := least_connections_pick [1, 0, 2, 1] (by decide)
  exact ⟨h.1.1, h.2⟩

end Gain
